import Mathlib

/-!
The POP3S protocol probe (`protocols/pop3s_probe.go`)

A shallow embedding of `POP3STest.RunTest` and of the library functions it
calls, followed by theorems about the address, port and TLS configuration it
derives and about the dial / authenticate / quit lifecycle.

Modelling conventions:

* A Go `string` is a Lean `String` (valid UTF-8 text).  Where Go works on the
  bytes of the string (`len`, `strconv.Atoi`) the model works on
  `goBytes s`, the UTF-8 encoding of the text as a list of byte values.
* Go `int` is 64 bits wide (`intSize`); `uint64` arithmetic is `Nat`
  arithmetic reduced modulo `2 ^ 64`, `int` arithmetic is `Int` arithmetic
  wrapped into the signed 64-bit range.
* The network (`pop3.Dial`, `Client.Auth`, `Client.Quit`) is an explicit
  oracle `Network`; `RunTest` returns the list of network calls it issued, in
  order, together with its outcome.  An index-out-of-range run-time failure
  is the outcome `Outcome.panicked`.
-/

namespace Overseer

/-! ## Go strings -/

/-- UTF-8 encoding of one character, as byte values. -/
def charBytes (c : Char) : List Nat :=
  let v := c.toNat
  if v < 0x80 then [v]
  else if v < 0x800 then [0xC0 + v / 64, 0x80 + v % 64]
  else if v < 0x10000 then [0xE0 + v / 4096, 0x80 + (v / 64) % 64, 0x80 + v % 64]
  else [0xF0 + v / 262144, 0x80 + (v / 4096) % 64, 0x80 + (v / 64) % 64, 0x80 + v % 64]

/-- Bytes of a Go string. -/
def goBytes (s : String) : List Nat :=
  s.data.flatMap charBytes

/-! ## `strconv` -/

/-- Width of Go `int` (`strconv.IntSize`). -/
def intSize : Nat := 64

/-- Cause carried by a `strconv.NumError`. -/
inductive NumErrKind where
  | ErrSyntax
  | ErrRange
  deriving DecidableEq, Repr

/-- Go `error` values seen by `RunTest`: a `*strconv.NumError`, or an error
produced by the POP3 client library (kept abstract, identified by its text). -/
inductive Error where
  | NumError (Func : String) (Num : String) (Err : NumErrKind)
  | client (msg : String)
  deriving DecidableEq, Repr

/-- `strconv.syntaxError(fn, str)`. -/
def syntaxError (fn str : String) : Error :=
  Error.NumError fn str NumErrKind.ErrSyntax

/-- `strconv.rangeError(fn, str)`. -/
def rangeError (fn str : String) : Error :=
  Error.NumError fn str NumErrKind.ErrRange

/-- Go `x | ('x' - 'X')` on a byte (`strconv.lower`): sets bit `0x20`. -/
def lower (c : Nat) : Nat :=
  if (c / 32) % 2 = 1 then c else c + 32

/-- Result of the digit loop of `strconv.ParseUint`: the value, or the value
returned together with an error kind. -/
inductive UintResult where
  | ok (n : Nat)
  | err (n : Nat) (kind : NumErrKind)
  deriving DecidableEq, Repr

/-- The `for _, c := range []byte(s)` loop of `strconv.ParseUint(s, 10, 0)`,
with `n` the accumulator.  `cutoff = maxUint64/10 + 1`, `maxVal = 2^64 - 1`. -/
def parseUintLoop : List Nat → Nat → UintResult
  | [], n => UintResult.ok n
  | c :: cs, n =>
    let d? : Option Nat :=
      if 48 ≤ c ∧ c ≤ 57 then some (c - 48)
      else if 97 ≤ lower c ∧ lower c ≤ 122 then some (lower c - 97 + 10)
      else none
    match d? with
    | none => UintResult.err 0 NumErrKind.ErrSyntax
    | some d =>
      if d ≥ 10 then UintResult.err 0 NumErrKind.ErrSyntax
      else if n ≥ (2 ^ 64 - 1) / 10 + 1 then
        UintResult.err (2 ^ 64 - 1) NumErrKind.ErrRange
      else
        let n10 := (n * 10) % 2 ^ 64
        let n1 := (n10 + d) % 2 ^ 64
        if n1 < n10 ∨ n1 > 2 ^ 64 - 1 then
          UintResult.err (2 ^ 64 - 1) NumErrKind.ErrRange
        else parseUintLoop cs n1

/-- `strconv.ParseUint(s, 10, 0)` on the bytes of `s`. -/
def ParseUint (s : List Nat) : UintResult :=
  if s = [] then UintResult.err 0 NumErrKind.ErrSyntax
  else parseUintLoop s 0

/-- `strconv.ParseInt(s, 10, 0)`; `s0` is the original string, `s` its bytes.
The error's `Func` field is already the one `Atoi` overwrites it with. -/
def ParseInt (fn : String) (s0 : String) (s : List Nat) : Except Error Int :=
  if s = [] then Except.error (syntaxError fn s0)
  else
    let neg : Bool := s.head? = some 45
    let body : List Nat := if s.head? = some 43 ∨ s.head? = some 45 then s.tail else s
    match ParseUint body with
    | UintResult.err _ NumErrKind.ErrSyntax => Except.error (syntaxError fn s0)
    | r =>
      let un : Nat := match r with
        | UintResult.ok n => n
        | UintResult.err n _ => n
      let cutoff : Nat := 2 ^ (intSize - 1)
      if !neg ∧ un ≥ cutoff then Except.error (rangeError fn s0)
      else if neg ∧ un > cutoff then Except.error (rangeError fn s0)
      else Except.ok (if neg then -(un : Int) else (un : Int))

/-- Two's-complement wrap of an integer into the range of Go `int`. -/
def wrapInt (x : Int) : Int :=
  (x + 2 ^ (intSize - 1)) % 2 ^ intSize - 2 ^ (intSize - 1)

/-- The fast-path digit loop of `strconv.Atoi`: `ch -= '0'` is byte
arithmetic, `n = n*10 + int(ch)` is `int` arithmetic. -/
def atoiLoop : List Nat → Int → Option Int
  | [], n => some n
  | ch :: cs, n =>
    let ch' := (ch + 256 - 48) % 256
    if ch' > 9 then none
    else atoiLoop cs (wrapInt (n * 10 + (ch' : Int)))

/-- `strconv.Atoi(s)`. -/
def Atoi (s0 : String) : Except Error Int :=
  let s := goBytes s0
  let sLen := s.length
  if (intSize = 32 ∧ (0 < sLen ∧ sLen < 10)) ∨ (intSize = 64 ∧ (0 < sLen ∧ sLen < 19)) then
    let signed : Bool := s.head? = some 45 ∨ s.head? = some 43
    let body := if signed then s.tail else s
    if signed ∧ body.length < 1 then Except.error (syntaxError "Atoi" s0)
    else
      match atoiLoop body 0 with
      | none => Except.error (syntaxError "Atoi" s0)
      | some n => Except.ok (if s.head? = some 45 then wrapInt (-n) else n)
  else ParseInt "Atoi" s0 s

/-! ## `strings` and `fmt` -/

/-- `strings.Contains(s, substr)`: `substr` occurs in `s`. -/
def Contains (s substr : String) : Bool :=
  s.data.tails.any (fun t => substr.data.isPrefixOf t)

/-- `unicode.IsSpace`. -/
def IsSpace (r : Char) : Bool :=
  let v := r.toNat
  (0x09 ≤ v ∧ v ≤ 0x0D) ∨ v = 0x20 ∨ v = 0x85 ∨ v = 0xA0 ∨ v = 0x1680 ∨
  (0x2000 ≤ v ∧ v ≤ 0x200A) ∨ v = 0x2028 ∨ v = 0x2029 ∨ v = 0x202F ∨
  v = 0x205F ∨ v = 0x3000

/-- The scan of `strings.Fields`: `cur` is the field being read (reversed),
`acc` the fields already completed (reversed). -/
def fieldsLoop : List Char → Option (List Char) → List String → List String
  | [], none, acc => acc.reverse
  | [], some w, acc => (String.mk w.reverse :: acc).reverse
  | c :: cs, cur, acc =>
    if IsSpace c then
      match cur with
      | some w => fieldsLoop cs none (String.mk w.reverse :: acc)
      | none => fieldsLoop cs none acc
    else
      match cur with
      | some w => fieldsLoop cs (some (c :: w)) acc
      | none => fieldsLoop cs (some [c]) acc

/-- `strings.Fields(s)`: the maximal runs of non-space characters of `s`. -/
def Fields (s : String) : List String :=
  fieldsLoop s.data none []

/-- What the verb `%d` prints for an `int`. -/
def formatInt (n : Int) : String :=
  if n < 0 then "-" ++ String.mk (Nat.toDigits 10 n.natAbs)
  else String.mk (Nat.toDigits 10 n.toNat)

/-! ## The probe -/

/-- The fields of `test.Test` read by the probe.  `Arguments` is the Go map,
as an association list. -/
structure Test where
  Input : String
  Arguments : List (String × String)
  deriving Repr

/-- Go map indexing `m[k]`: the zero value `""` when the key is absent. -/
def Test.arg (tst : Test) (k : String) : String :=
  (tst.Arguments.lookup k).getD ""

/-- The field of `test.TestOptions` read by the probe (nanoseconds). -/
structure TestOptions where
  Timeout : Int
  deriving Repr

/-- The fields of `tls.Config` set by the probe; every other field keeps its
zero value. -/
structure TLSConfig where
  ServerName : String
  InsecureSkipVerify : Bool
  deriving DecidableEq, Repr

/-- The remote side: what each library call answers (`none` is a nil error). -/
structure Network where
  Dial : String → TLSConfig → Int → Option Error
  Auth : String → String → Option Error
  Quit : Option Error

/-- One network call issued by `RunTest`, with the answer it received. -/
inductive Event where
  | Dial (address : String) (tlsSetup : TLSConfig) (timeout : Int) (err : Option Error)
  | Auth (username password : String) (err : Option Error)
  | Quit (err : Option Error)
  deriving DecidableEq, Repr

/-- How a call of `RunTest` ends: it returns an `error` (possibly nil), or
the run-time aborts it on an out-of-range index. -/
inductive Outcome where
  | returned (err : Option Error)
  | panicked
  deriving DecidableEq, Repr

/-- A run of `RunTest`: the network calls issued, in order, and the outcome. -/
structure Run where
  trace : List Event
  outcome : Outcome
  deriving DecidableEq, Repr

/-- Lines 75-85: the port, or the error of `strconv.Atoi`. -/
def resolvePort (tst : Test) : Except Error Int :=
  if tst.arg "port" ≠ "" then Atoi (tst.arg "port") else Except.ok 995

/-- Lines 98-105: the address handed to `pop3.Dial`. -/
def dialAddress (target : String) (port : Int) : String :=
  let address := target ++ ":" ++ formatInt port
  if Contains target ":" then "[" ++ target ++ "]:" ++ formatInt port else address

/-- Lines 69-150: `POP3STest.RunTest`. -/
def RunTest (net : Network) (tst : Test) (target : String) (opts : TestOptions) : Run :=
  match resolvePort tst with
  | Except.error err => ⟨[], Outcome.returned (some err)⟩
  | Except.ok port =>
    let insecure : Bool := tst.arg "tls" = "insecure"
    let address := dialAddress target port
    let data := Fields tst.Input
    match data with
    | [] => ⟨[], Outcome.panicked⟩
    | data0 :: _ =>
      let tlsSetup : TLSConfig :=
        if insecure then { ServerName := "", InsecureSkipVerify := true }
        else { ServerName := data0, InsecureSkipVerify := false }
      let dialErr := net.Dial address tlsSetup opts.Timeout
      let t1 := [Event.Dial address tlsSetup opts.Timeout dialErr]
      match dialErr with
      | some err => ⟨t1, Outcome.returned (some err)⟩
      | none =>
        if tst.arg "username" ≠ "" ∧ tst.arg "password" ≠ "" then
          let authErr := net.Auth (tst.arg "username") (tst.arg "password")
          let t2 := t1 ++ [Event.Auth (tst.arg "username") (tst.arg "password") authErr]
          match authErr with
          | some err => ⟨t2, Outcome.returned (some err)⟩
          | none => ⟨t2 ++ [Event.Quit net.Quit], Outcome.returned none⟩
        else ⟨t1 ++ [Event.Quit net.Quit], Outcome.returned none⟩

/-- A server that accepts every call. -/
def acceptAll : Network :=
  { Dial := fun _ _ _ => none, Auth := fun _ _ => none, Quit := none }

/-- A server that accepts the connection and rejects every login. -/
def rejectAuth : Network :=
  { Dial := fun _ _ _ => none, Auth := fun _ _ => some (Error.client "-ERR"), Quit := none }

/-! ## Specification-level notions -/

/-- The input text contains at least one non-whitespace character. -/
def hasToken (s : String) : Prop :=
  ∃ c ∈ s.data, IsSpace c = false

/-- The first whitespace-delimited token of a text: skip the leading
white space, then read up to the next white space. -/
def firstToken (s : String) : String :=
  String.mk ((s.data.dropWhile IsSpace).takeWhile (fun c => !IsSpace c))

/-- The text matches the schema pattern `^[0-9]+$` that `Arguments()`
declares for `port`: it is non-empty and made of ASCII digits only. -/
def isDigitString (s : String) : Prop :=
  s.data ≠ [] ∧ ∀ c ∈ s.data, 48 ≤ c.toNat ∧ c.toNat ≤ 57

/-- The number a string of decimal digits denotes. -/
def decimalValue (s : String) : Nat :=
  s.data.foldl (fun n c => n * 10 + (c.toNat - 48)) 0

/-- Value of a list of digit bytes read after the number `n`. -/
def valFrom (n : Nat) (bs : List Nat) : Nat :=
  bs.foldl (fun n b => n * 10 + (b - 48)) n

/-- The TLS configuration of the two modes, in terms of the first token of
the input text. -/
def tlsSetupOf (tst : Test) : TLSConfig :=
  if tst.arg "tls" = "insecure" then { ServerName := "", InsecureSkipVerify := true }
  else { ServerName := firstToken tst.Input, InsecureSkipVerify := false }

/-- The `(address, tlsSetup, timeout)` of every `pop3.Dial` call of a run. -/
def Run.dials (r : Run) : List (String × TLSConfig × Int) :=
  r.trace.filterMap fun
    | Event.Dial a c t _ => some (a, c, t)
    | _ => none

/-- The `(username, password)` of every `Auth` call of a run. -/
def Run.auths (r : Run) : List (String × String) :=
  r.trace.filterMap fun
    | Event.Auth u p _ => some (u, p)
    | _ => none

/-- The number of `Quit` calls of a run. -/
def Run.quits (r : Run) : Nat :=
  (r.trace.filter fun
    | Event.Quit _ => true
    | _ => false).length

/-! ## Library lemmas -/

theorem contains_colon_iff (target : String) :
    Contains target ":" = true ↔ ':' ∈ target.data := by
  unfold Contains
  have h : (":" : String).data = [':'] := rfl
  rw [h]
  generalize target.data = l
  induction l with
  | nil => simp [List.isPrefixOf]
  | cons c cs ih =>
    rw [List.tails, List.any_cons, Bool.or_eq_true, List.mem_cons]
    simp only [List.isPrefixOf, Bool.and_true, beq_iff_eq]
    exact or_congr Iff.rfl ih

theorem fieldsLoop_acc (cs : List Char) :
    ∀ (cur : Option (List Char)) (acc : List String),
      fieldsLoop cs cur acc = acc.reverse ++ fieldsLoop cs cur [] := by
  induction cs with
  | nil => intro cur acc; cases cur <;> simp [fieldsLoop]
  | cons c cs ih =>
    intro cur acc
    cases cur with
    | none =>
      by_cases hc : IsSpace c = true
      · simp only [fieldsLoop, hc, if_true]; exact ih none acc
      · simp only [fieldsLoop, hc, if_false]; exact ih _ acc
    | some w =>
      by_cases hc : IsSpace c = true
      · simp only [fieldsLoop, hc, if_true]
        rw [ih none (String.mk w.reverse :: acc), ih none [String.mk w.reverse]]
        simp
      · simp only [fieldsLoop, hc, if_false]; exact ih _ acc

theorem fieldsLoop_some (cs : List Char) :
    ∀ w : List Char,
      fieldsLoop cs (some w) [] =
        String.mk (w.reverse ++ cs.takeWhile (fun c => !IsSpace c)) ::
          fieldsLoop (cs.dropWhile (fun c => !IsSpace c)) none [] := by
  induction cs with
  | nil => intro w; simp [fieldsLoop]
  | cons c cs ih =>
    intro w
    by_cases hc : IsSpace c = true
    · simp only [fieldsLoop, hc, if_true]
      rw [fieldsLoop_acc cs none [String.mk w.reverse]]
      simp [List.takeWhile, List.dropWhile, hc, fieldsLoop]
    · simp only [fieldsLoop, hc, if_false]
      rw [ih (c :: w)]
      simp [List.takeWhile, List.dropWhile, hc]

theorem fieldsLoop_none (cs : List Char) :
    fieldsLoop cs none [] =
      match cs.dropWhile IsSpace with
      | [] => []
      | c :: rest =>
        String.mk (c :: rest.takeWhile (fun c => !IsSpace c)) ::
          fieldsLoop (rest.dropWhile (fun c => !IsSpace c)) none [] := by
  induction cs with
  | nil => simp [fieldsLoop]
  | cons c cs ih =>
    by_cases hc : IsSpace c = true
    · simp only [fieldsLoop, hc, if_true, List.dropWhile]; exact ih
    · simp only [fieldsLoop, hc, if_false, List.dropWhile]
      rw [fieldsLoop_some cs [c]]
      simp

theorem dropWhile_space_ne_nil {s : String} (h : hasToken s) :
    s.data.dropWhile IsSpace ≠ [] := by
  obtain ⟨c, hc, hs⟩ := h
  intro hnil
  rw [List.dropWhile_eq_nil_iff] at hnil
  have := hnil c hc
  simp [hs] at this

theorem fields_of_hasToken {s : String} (h : hasToken s) :
    ∃ rest, Fields s = firstToken s :: rest := by
  unfold Fields firstToken
  rw [fieldsLoop_none]
  have hne := dropWhile_space_ne_nil h
  cases hd : s.data.dropWhile IsSpace with
  | nil => exact absurd hd hne
  | cons c rest =>
    have hc : IsSpace c = false := by
      have := List.head_dropWhile_not IsSpace s.data (by rw [hd]; simp)
      simpa [hd] using this
    exact ⟨fieldsLoop (rest.dropWhile (fun c => !IsSpace c)) none [], by
      simp [List.takeWhile, hc]⟩

theorem fields_of_not_hasToken {s : String} (h : ¬ hasToken s) : Fields s = [] := by
  unfold Fields
  rw [fieldsLoop_none]
  have : s.data.dropWhile IsSpace = [] := by
    rw [List.dropWhile_eq_nil_iff]
    intro c hc
    by_contra hs
    exact h ⟨c, hc, by simpa using hs⟩
  rw [this]

/-! ## Structure of a run -/

theorem resolvePort_ok_iff (tst : Test) :
    (∃ p, resolvePort tst = Except.ok p) ↔
      (tst.arg "port" = "" ∨ ∃ n, Atoi (tst.arg "port") = Except.ok n) := by
  unfold resolvePort
  by_cases h : tst.arg "port" = ""
  · simp [h]
  · simp [h]

theorem dialAddress_eq (target : String) (port : Int) :
    dialAddress target port =
      if ':' ∈ target.data then "[" ++ target ++ "]:" ++ formatInt port
      else target ++ ":" ++ formatInt port := by
  unfold dialAddress
  by_cases h : ':' ∈ target.data
  · simp [h, (contains_colon_iff target).mpr h]
  · have : Contains target ":" = false := by
      rw [← Bool.not_eq_true, contains_colon_iff]; exact h
    simp [h, this]

theorem runTest_parse_error (net : Network) (tst : Test) (target : String)
    (opts : TestOptions) {e : Error} (h : resolvePort tst = Except.error e) :
    RunTest net tst target opts = ⟨[], Outcome.returned (some e)⟩ := by
  unfold RunTest
  rw [h]

theorem runTest_no_token (net : Network) (tst : Test) (target : String)
    (opts : TestOptions) {p : Int} (hp : resolvePort tst = Except.ok p)
    (h : ¬ hasToken tst.Input) :
    RunTest net tst target opts = ⟨[], Outcome.panicked⟩ := by
  unfold RunTest
  rw [hp]
  simp only [fields_of_not_hasToken h]

theorem runTest_reaches_dial (net : Network) (tst : Test) (target : String)
    (opts : TestOptions) {p : Int} (hp : resolvePort tst = Except.ok p)
    (h : hasToken tst.Input) :
    RunTest net tst target opts =
      match net.Dial (dialAddress target p) (tlsSetupOf tst) opts.Timeout with
      | some err =>
        ⟨[Event.Dial (dialAddress target p) (tlsSetupOf tst) opts.Timeout (some err)],
          Outcome.returned (some err)⟩
      | none =>
        if tst.arg "username" ≠ "" ∧ tst.arg "password" ≠ "" then
          match net.Auth (tst.arg "username") (tst.arg "password") with
          | some err =>
            ⟨[Event.Dial (dialAddress target p) (tlsSetupOf tst) opts.Timeout none,
              Event.Auth (tst.arg "username") (tst.arg "password") (some err)],
              Outcome.returned (some err)⟩
          | none =>
            ⟨[Event.Dial (dialAddress target p) (tlsSetupOf tst) opts.Timeout none,
              Event.Auth (tst.arg "username") (tst.arg "password") none,
              Event.Quit net.Quit],
              Outcome.returned none⟩
        else
          ⟨[Event.Dial (dialAddress target p) (tlsSetupOf tst) opts.Timeout none,
            Event.Quit net.Quit],
            Outcome.returned none⟩ := by
  obtain ⟨rest, hf⟩ := fields_of_hasToken h
  unfold RunTest
  rw [hp]
  simp only [hf]
  have hcfg : (if (decide (tst.arg "tls" = "insecure")) = true then
        ({ ServerName := "", InsecureSkipVerify := true } : TLSConfig)
      else { ServerName := firstToken tst.Input, InsecureSkipVerify := false }) =
      tlsSetupOf tst := by
    unfold tlsSetupOf; simp
  rw [hcfg]
  cases hd : net.Dial (dialAddress target p) (tlsSetupOf tst) opts.Timeout with
  | some err => simp
  | none =>
    by_cases hup : tst.arg "username" ≠ "" ∧ tst.arg "password" ≠ ""
    · simp only [hup, if_true]
      cases ha : net.Auth (tst.arg "username") (tst.arg "password") <;> simp
    · simp only [hup, if_false]; simp

/-- Every run that reaches the dial issues exactly one `pop3.Dial`. -/
theorem runTest_dials (net : Network) (tst : Test) (target : String)
    (opts : TestOptions) {p : Int} (hp : resolvePort tst = Except.ok p)
    (h : hasToken tst.Input) :
    (RunTest net tst target opts).dials =
      [(dialAddress target p, tlsSetupOf tst, opts.Timeout)] := by
  rw [runTest_reaches_dial net tst target opts hp h]
  cases net.Dial (dialAddress target p) (tlsSetupOf tst) opts.Timeout with
  | some err => simp [Run.dials]
  | none =>
    by_cases hup : tst.arg "username" ≠ "" ∧ tst.arg "password" ≠ ""
    · rw [if_pos hup]
      cases net.Auth (tst.arg "username") (tst.arg "password") <;> simp [Run.dials]
    · rw [if_neg hup]; simp [Run.dials]

/-! ## The verb `%d` -/

theorem digitChar_toNat (k : Nat) (hk : k < 10) : (Nat.digitChar k).toNat - 48 = k := by
  interval_cases k <;> rfl

theorem toDigitsCore_value (fuel : Nat) :
    ∀ (n : Nat) (ds : List Char), n < fuel →
      (Nat.toDigitsCore 10 fuel n ds).foldl (fun a c => a * 10 + (c.toNat - 48)) 0 =
        ds.foldl (fun a c => a * 10 + (c.toNat - 48)) n := by
  induction fuel with
  | zero => intro n ds h; omega
  | succ fuel ih =>
    intro n ds h
    have hd := digitChar_toNat (n % 10) (Nat.mod_lt n (by norm_num))
    unfold Nat.toDigitsCore
    simp only
    by_cases h0 : n / 10 = 0
    · rw [if_pos h0, List.foldl_cons, hd]
      have : 0 * 10 + n % 10 = n := by omega
      rw [this]
    · rw [if_neg h0, ih (n / 10) _ (by omega), List.foldl_cons, hd]
      have : n / 10 * 10 + n % 10 = n := by omega
      rw [this]

/-- The digits `%d` prints for a non-negative port denote that port. -/
theorem decimalValue_formatInt (n : Nat) : decimalValue (formatInt (n : Int)) = n := by
  unfold decimalValue formatInt
  rw [if_neg (by omega)]
  simp only [Int.toNat_ofNat]
  unfold Nat.toDigits
  rw [toDigitsCore_value (n + 1) n [] (by omega)]
  rfl

theorem digitChar_range (k : Nat) (hk : k < 10) :
    48 ≤ (Nat.digitChar k).toNat ∧ (Nat.digitChar k).toNat ≤ 57 := by
  interval_cases k <;> decide

theorem toDigitsCore_digits (fuel : Nat) :
    ∀ (n : Nat) (ds : List Char), (∀ c ∈ ds, 48 ≤ c.toNat ∧ c.toNat ≤ 57) →
      ∀ c ∈ Nat.toDigitsCore 10 fuel n ds, 48 ≤ c.toNat ∧ c.toNat ≤ 57 := by
  induction fuel with
  | zero => intro n ds h; exact h
  | succ fuel ih =>
    intro n ds h
    have hd := digitChar_range (n % 10) (Nat.mod_lt n (by norm_num))
    have hcons : ∀ c ∈ Nat.digitChar (n % 10) :: ds, 48 ≤ c.toNat ∧ c.toNat ≤ 57 := by
      intro c hc
      rcases List.mem_cons.mp hc with rfl | hc
      · exact hd
      · exact h c hc
    unfold Nat.toDigitsCore
    simp only
    by_cases h0 : n / 10 = 0
    · rw [if_pos h0]; exact hcons
    · rw [if_neg h0]; exact ih (n / 10) _ hcons

theorem toDigitsCore_ne_nil (fuel : Nat) :
    ∀ (n : Nat) (ds : List Char), (0 < fuel ∨ ds ≠ []) →
      Nat.toDigitsCore 10 fuel n ds ≠ [] := by
  induction fuel with
  | zero =>
    intro n ds h
    rcases h with h | h
    · omega
    · exact h
  | succ fuel ih =>
    intro n ds _
    unfold Nat.toDigitsCore
    simp only
    by_cases h0 : n / 10 = 0
    · rw [if_pos h0]; exact List.cons_ne_nil _ _
    · rw [if_neg h0]; exact ih (n / 10) _ (Or.inr (List.cons_ne_nil _ _))

/-- What `%d` prints is an optional minus sign followed by a non-empty string
of decimal digits that denotes the absolute value. -/
theorem formatInt_decimal (p : Int) :
    ∃ ds : String, formatInt p = (if p < 0 then "-" else "") ++ ds ∧
      isDigitString ds ∧ decimalValue ds = p.natAbs := by
  have hdig : ∀ n : Nat, isDigitString (String.mk (Nat.toDigits 10 n)) := fun n =>
    ⟨toDigitsCore_ne_nil (n + 1) n [] (Or.inl (by omega)),
      toDigitsCore_digits (n + 1) n [] (by simp)⟩
  have hval : ∀ n : Nat, decimalValue (String.mk (Nat.toDigits 10 n)) = n := fun n => by
    unfold decimalValue Nat.toDigits
    rw [toDigitsCore_value (n + 1) n [] (by omega)]
    rfl
  unfold formatInt
  by_cases hneg : p < 0
  · rw [if_pos hneg, if_pos hneg]
    exact ⟨_, rfl, hdig _, hval _⟩
  · rw [if_neg hneg, if_neg hneg]
    refine ⟨String.mk (Nat.toDigits 10 p.toNat), ?_, hdig _, ?_⟩
    · rw [String.empty_append]
    · rw [hval]; omega

/-! ## Address, port and TLS configuration -/

/-- C1: for every target and every resolved port `p`, a run that reaches the
dial issues exactly one `pop3.Dial`, to `target ++ ":" ++ decimal p` when
the target holds no colon and to `"[" ++ target ++ "]:" ++ decimal p` when
it holds one; `decimal p` is a minus sign for a negative `p` followed by
decimal digits that denote the absolute value of `p`. -/
theorem C1_dial_address (net : Network) (tst : Test) (target : String)
    (opts : TestOptions) (p : Int) (hport : resolvePort tst = Except.ok p)
    (hin : hasToken tst.Input) :
    (':' ∉ target.data → ∃ cfg, (RunTest net tst target opts).dials =
        [(target ++ ":" ++ formatInt p, cfg, opts.Timeout)]) ∧
    (':' ∈ target.data → ∃ cfg, (RunTest net tst target opts).dials =
        [("[" ++ target ++ "]:" ++ formatInt p, cfg, opts.Timeout)]) ∧
    (∃ ds : String, formatInt p = (if p < 0 then "-" else "") ++ ds ∧
      isDigitString ds ∧ decimalValue ds = p.natAbs) := by
  rw [runTest_dials net tst target opts hport hin, dialAddress_eq]
  refine ⟨?_, ?_, formatInt_decimal p⟩
  · intro h; exact ⟨tlsSetupOf tst, by rw [if_neg h]⟩
  · intro h; exact ⟨tlsSetupOf tst, by rw [if_pos h]⟩

set_option maxRecDepth 100000 in
theorem C1_dial_address_witness :
    (∃ cfg, (RunTest acceptAll ⟨"mail.example.com must run pop3s", []⟩
        "mail.example.com" ⟨5⟩).dials = [("mail.example.com:995", cfg, 5)]) ∧
    (∃ cfg, (RunTest acceptAll ⟨"mail.example.com must run pop3s", [("port", "2995")]⟩
        "2001:db8::1" ⟨5⟩).dials = [("[2001:db8::1]:2995", cfg, 5)]) :=
  ⟨(C1_dial_address acceptAll ⟨"mail.example.com must run pop3s", []⟩
      "mail.example.com" ⟨5⟩ 995 rfl ⟨'m', by decide, by decide⟩).1 (by decide),
   (C1_dial_address acceptAll ⟨"mail.example.com must run pop3s", [("port", "2995")]⟩
      "2001:db8::1" ⟨5⟩ 2995 rfl ⟨'m', by decide, by decide⟩).2.1 (by decide)⟩

/-- C2: the port `RunTest` resolves is 995 when the `port` argument is absent
or empty, and is the integer `strconv.Atoi` returns for it whenever that
call succeeds; a run that reaches the dial uses that port in the address of
its one dial. -/
theorem C2_port (net : Network) (tst : Test) (target : String) (opts : TestOptions) :
    ((tst.Arguments.lookup "port" = none ∨ tst.Arguments.lookup "port" = some "") →
      resolvePort tst = Except.ok 995 ∧
      (hasToken tst.Input → ∃ cfg, (RunTest net tst target opts).dials =
        [(dialAddress target 995, cfg, opts.Timeout)])) ∧
    (∀ n : Int, tst.arg "port" ≠ "" → Atoi (tst.arg "port") = Except.ok n →
      resolvePort tst = Except.ok n ∧
      (hasToken tst.Input → ∃ cfg, (RunTest net tst target opts).dials =
        [(dialAddress target n, cfg, opts.Timeout)])) := by
  constructor
  · intro h
    have he : tst.arg "port" = "" := by
      unfold Test.arg
      rcases h with h | h <;> rw [h] <;> rfl
    have hp : resolvePort tst = Except.ok 995 := by
      unfold resolvePort; simp [he]
    exact ⟨hp, fun hin => ⟨tlsSetupOf tst, runTest_dials net tst target opts hp hin⟩⟩
  · intro n hne hn
    have hp : resolvePort tst = Except.ok n := by
      unfold resolvePort; rw [if_pos hne, hn]
    exact ⟨hp, fun hin => ⟨tlsSetupOf tst, runTest_dials net tst target opts hp hin⟩⟩

set_option maxRecDepth 100000 in
theorem C2_port_witness :
    (∃ cfg, (RunTest acceptAll ⟨"mail.example.com must run pop3s", []⟩
        "mail.example.com" ⟨5⟩).dials = [("mail.example.com:995", cfg, 5)]) ∧
    (∃ cfg, (RunTest acceptAll
        ⟨"mail.example.com must run pop3s", [("tls", "insecure"), ("port", "2995")]⟩
        "target" ⟨5⟩).dials = [("target:2995", cfg, 5)]) :=
  ⟨((C2_port acceptAll ⟨"mail.example.com must run pop3s", []⟩ "mail.example.com" ⟨5⟩).1
      (Or.inl rfl)).2 ⟨'m', by decide, by decide⟩,
   ((C2_port acceptAll
      ⟨"mail.example.com must run pop3s", [("tls", "insecure"), ("port", "2995")]⟩
      "target" ⟨5⟩).2 2995 (by decide) rfl).2 ⟨'m', by decide, by decide⟩⟩

/-- C3: when the `port` argument is non-empty and `strconv.Atoi` rejects it,
`RunTest` returns that error and issues no network call at all, whatever the
target, the input text and the other arguments. -/
theorem C3_bad_port (net : Network) (tst : Test) (target : String) (opts : TestOptions)
    (e : Error) (hne : tst.arg "port" ≠ "") (herr : Atoi (tst.arg "port") = Except.error e) :
    (RunTest net tst target opts).outcome = Outcome.returned (some e) ∧
    (RunTest net tst target opts).trace = [] ∧
    (RunTest net tst target opts).dials = [] ∧
    (RunTest net tst target opts).auths = [] ∧
    (RunTest net tst target opts).quits = 0 := by
  have hp : resolvePort tst = Except.error e := by
    unfold resolvePort; rw [if_pos hne, herr]
  rw [runTest_parse_error net tst target opts hp]
  exact ⟨rfl, rfl, rfl, rfl, rfl⟩

set_option maxRecDepth 100000 in
theorem C3_bad_port_witness :
    (RunTest acceptAll ⟨"mail.example.com must run pop3s", [("port", "pop3")]⟩
        "mail.example.com" ⟨5⟩).outcome =
      Outcome.returned (some (Error.NumError "Atoi" "pop3" NumErrKind.ErrSyntax)) ∧
    (RunTest acceptAll ⟨"mail.example.com must run pop3s", [("port", "pop3")]⟩
        "mail.example.com" ⟨5⟩).trace = [] :=
  have h := C3_bad_port acceptAll ⟨"mail.example.com must run pop3s", [("port", "pop3")]⟩
    "mail.example.com" ⟨5⟩ (Error.NumError "Atoi" "pop3" NumErrKind.ErrSyntax)
    (by decide) rfl
  ⟨h.1, h.2.1⟩

/-- C4 (as stated, refuted): with `tls` set to `insecure` and no `port`
argument, an empty input text makes `RunTest` fail on `data[0]` before any
dial, so no TLS configuration is handed to `pop3.Dial`. -/
theorem C4_counterexample :
    Test.arg ⟨"", [("tls", "insecure")]⟩ "tls" = "insecure" ∧
    Test.arg ⟨"", [("tls", "insecure")]⟩ "port" = "" ∧
    RunTest acceptAll ⟨"", [("tls", "insecure")]⟩ "mail.example.com" ⟨5⟩ =
      ⟨[], Outcome.panicked⟩ ∧
    (RunTest acceptAll ⟨"", [("tls", "insecure")]⟩ "mail.example.com" ⟨5⟩).dials = [] := by
  decide

/-- C4 (amended): when `tls` is `insecure`, the port is empty or parseable
and the input text holds a non-whitespace character, the one `pop3.Dial` of
the run gets a configuration with `InsecureSkipVerify = true` and an empty
`ServerName`. -/
theorem C4_insecure_config (net : Network) (tst : Test) (target : String)
    (opts : TestOptions) (htls : tst.arg "tls" = "insecure")
    (hport : tst.arg "port" = "" ∨ ∃ n, Atoi (tst.arg "port") = Except.ok n)
    (hin : hasToken tst.Input) :
    ∃ address, (RunTest net tst target opts).dials =
      [(address, { ServerName := "", InsecureSkipVerify := true }, opts.Timeout)] := by
  obtain ⟨p, hp⟩ := (resolvePort_ok_iff tst).mpr hport
  refine ⟨dialAddress target p, ?_⟩
  rw [runTest_dials net tst target opts hp hin]
  unfold tlsSetupOf
  rw [if_pos htls]

set_option maxRecDepth 100000 in
theorem C4_insecure_config_witness :
    ∃ address, (RunTest acceptAll
        ⟨"mail.example.com must run pop3s", [("tls", "insecure"), ("port", "2995")]⟩
        "192.0.2.7" ⟨5⟩).dials = [(address, ⟨"", true⟩, 5)] :=
  C4_insecure_config acceptAll
    ⟨"mail.example.com must run pop3s", [("tls", "insecure"), ("port", "2995")]⟩
    "192.0.2.7" ⟨5⟩ (by decide) (Or.inr ⟨2995, rfl⟩) ⟨'m', by decide, by decide⟩

/-- C5: when `tls` is absent or differs from `insecure` (port empty or
parseable, input text with a non-whitespace character), the one `pop3.Dial`
of the run gets a configuration with `InsecureSkipVerify = false` and
`ServerName` equal to the first whitespace-delimited token of the input
text; the configuration is the same for every target and every server. -/
theorem C5_secure_config (net : Network) (tst : Test) (target : String)
    (opts : TestOptions) (htls : tst.Arguments.lookup "tls" ≠ some "insecure")
    (hport : tst.arg "port" = "" ∨ ∃ n, Atoi (tst.arg "port") = Except.ok n)
    (hin : hasToken tst.Input) :
    (∃ address, (RunTest net tst target opts).dials =
      [(address, { ServerName := firstToken tst.Input, InsecureSkipVerify := false },
        opts.Timeout)]) ∧
    (∀ (net' : Network) (target' : String),
      (RunTest net' tst target' opts).dials.map (fun d => d.2.1) =
        (RunTest net tst target opts).dials.map (fun d => d.2.1)) := by
  obtain ⟨p, hp⟩ := (resolvePort_ok_iff tst).mpr hport
  have harg : tst.arg "tls" ≠ "insecure" := by
    unfold Test.arg
    cases hl : tst.Arguments.lookup "tls" with
    | none => decide
    | some v =>
      intro hv
      apply htls
      rw [hl]
      simpa using hv
  constructor
  · refine ⟨dialAddress target p, ?_⟩
    rw [runTest_dials net tst target opts hp hin]
    unfold tlsSetupOf
    rw [if_neg harg]
  · intro net' target'
    rw [runTest_dials net tst target opts hp hin, runTest_dials net' tst target' opts hp hin]
    rfl

set_option maxRecDepth 100000 in
theorem C5_secure_config_witness :
    (∃ address, (RunTest acceptAll ⟨"  mail.example.com must run pop3s", []⟩
        "192.0.2.7" ⟨5⟩).dials = [(address, ⟨"mail.example.com", false⟩, 5)]) ∧
    (RunTest rejectAuth ⟨"  mail.example.com must run pop3s", []⟩
        "2001:db8::1" ⟨5⟩).dials.map (fun d => d.2.1) =
      (RunTest acceptAll ⟨"  mail.example.com must run pop3s", []⟩
        "192.0.2.7" ⟨5⟩).dials.map (fun d => d.2.1) :=
  have h := C5_secure_config acceptAll ⟨"  mail.example.com must run pop3s", []⟩
    "192.0.2.7" ⟨5⟩ (by decide) (Or.inl (by decide)) ⟨'m', by decide, by decide⟩
  ⟨h.1, h.2 rejectAuth "2001:db8::1"⟩

/-! ## Dial, authenticate, quit -/

/-- A run whose trace holds any event has resolved its port and read the
first token of the input text. -/
theorem runTest_trace_nonempty (net : Network) (tst : Test) (target : String)
    (opts : TestOptions) (h : (RunTest net tst target opts).trace ≠ []) :
    (∃ p, resolvePort tst = Except.ok p) ∧ hasToken tst.Input := by
  cases hp : resolvePort tst with
  | error e => rw [runTest_parse_error net tst target opts hp] at h; exact absurd rfl h
  | ok p =>
    by_cases hin : hasToken tst.Input
    · exact ⟨⟨p, rfl⟩, hin⟩
    · rw [runTest_no_token net tst target opts hp hin] at h; exact absurd rfl h

/-- C6: in every run whose dial succeeds, `Auth` is called exactly once,
with the `username` and `password` arguments in that order, when both are
non-empty, and is not called at all when either is empty or absent. -/
theorem C6_auth_iff_credentials (net : Network) (tst : Test) (target : String)
    (opts : TestOptions)
    (hdial : ∃ a c t, Event.Dial a c t none ∈ (RunTest net tst target opts).trace) :
    ((tst.arg "username" ≠ "" ∧ tst.arg "password" ≠ "") →
      (RunTest net tst target opts).auths = [(tst.arg "username", tst.arg "password")]) ∧
    (¬ (tst.arg "username" ≠ "" ∧ tst.arg "password" ≠ "") →
      (RunTest net tst target opts).auths = []) ∧
    (((RunTest net tst target opts).auths ≠ []) ↔
      (tst.arg "username" ≠ "" ∧ tst.arg "password" ≠ "")) := by
  obtain ⟨a, c, t, hmem⟩ := hdial
  obtain ⟨⟨p, hp⟩, hin⟩ :=
    runTest_trace_nonempty net tst target opts (List.ne_nil_of_mem hmem)
  rw [runTest_reaches_dial net tst target opts hp hin] at hmem ⊢
  cases hd : net.Dial (dialAddress target p) (tlsSetupOf tst) opts.Timeout with
  | some err =>
    rw [hd] at hmem
    simp at hmem
  | none =>
    by_cases hup : tst.arg "username" ≠ "" ∧ tst.arg "password" ≠ ""
    · simp only [if_pos hup]
      cases net.Auth (tst.arg "username") (tst.arg "password") <;>
        simp [Run.auths, hup]
    · simp only [if_neg hup]
      simp [Run.auths, hup]

set_option maxRecDepth 100000 in
theorem C6_auth_iff_credentials_witness :
    (RunTest rejectAuth
        ⟨"mail.example.com must run pop3s", [("username", "u"), ("password", "bad")]⟩
        "mail.example.com" ⟨5⟩).auths = [("u", "bad")] ∧
    (RunTest acceptAll ⟨"mail.example.com must run pop3s", []⟩
        "mail.example.com" ⟨5⟩).auths = [] :=
  ⟨(C6_auth_iff_credentials rejectAuth
      ⟨"mail.example.com must run pop3s", [("username", "u"), ("password", "bad")]⟩
      "mail.example.com" ⟨5⟩
      ⟨"mail.example.com:995", ⟨"mail.example.com", false⟩, 5, by decide⟩).1 (by decide),
   (C6_auth_iff_credentials acceptAll ⟨"mail.example.com must run pop3s", []⟩
      "mail.example.com" ⟨5⟩
      ⟨"mail.example.com:995", ⟨"mail.example.com", false⟩, 5, by decide⟩).2.1 (by decide)⟩

/-- The outcome of a run does not depend on what `Quit` answers. -/
theorem runTest_outcome_quit (net : Network) (tst : Test) (target : String)
    (opts : TestOptions) (q : Option Error) :
    (RunTest { net with Quit := q } tst target opts).outcome =
      (RunTest net tst target opts).outcome := by
  cases hp : resolvePort tst with
  | error e0 =>
    rw [runTest_parse_error net tst target opts hp, runTest_parse_error _ tst target opts hp]
  | ok p =>
    by_cases hin : hasToken tst.Input
    · rw [runTest_reaches_dial net tst target opts hp hin,
        runTest_reaches_dial _ tst target opts hp hin]
      simp only
      cases net.Dial (dialAddress target p) (tlsSetupOf tst) opts.Timeout with
      | some err => rfl
      | none =>
        by_cases hup : tst.arg "username" ≠ "" ∧ tst.arg "password" ≠ ""
        · simp only [if_pos hup]
          cases net.Auth (tst.arg "username") (tst.arg "password") <;> rfl
        · simp only [if_neg hup]
    · rw [runTest_no_token net tst target opts hp hin, runTest_no_token _ tst target opts hp hin]

/-- The answers recorded in the trace are the answers of the server. -/
theorem runTest_answers (net : Network) (tst : Test) (target : String)
    (opts : TestOptions) :
    (∀ a c t r, Event.Dial a c t r ∈ (RunTest net tst target opts).trace →
      r = net.Dial a c t) ∧
    (∀ u p r, Event.Auth u p r ∈ (RunTest net tst target opts).trace →
      r = net.Auth u p) := by
  cases hp : resolvePort tst with
  | error e0 =>
    rw [runTest_parse_error net tst target opts hp]
    simp
  | ok p =>
    by_cases hin : hasToken tst.Input
    · rw [runTest_reaches_dial net tst target opts hp hin]
      cases hd : net.Dial (dialAddress target p) (tlsSetupOf tst) opts.Timeout with
      | some err =>
        simp only [List.mem_singleton, Event.Dial.injEq, reduceCtorEq, false_imp_iff,
          implies_true, and_true]
        rintro a c t r ⟨rfl, rfl, rfl, rfl⟩
        exact hd.symm
      | none =>
        by_cases hup : tst.arg "username" ≠ "" ∧ tst.arg "password" ≠ ""
        · simp only [if_pos hup]
          cases ha : net.Auth (tst.arg "username") (tst.arg "password") with
          | some err =>
            simp only [List.mem_cons, List.mem_singleton, Event.Dial.injEq, Event.Auth.injEq,
              reduceCtorEq, or_false, false_or, List.not_mem_nil]
            constructor
            · rintro a c t r ⟨rfl, rfl, rfl, rfl⟩
              exact hd.symm
            · rintro u pw r ⟨rfl, rfl, rfl⟩
              exact ha.symm
          | none =>
            simp only [List.mem_cons, List.mem_singleton, Event.Dial.injEq, Event.Auth.injEq,
              reduceCtorEq, or_false, false_or, List.not_mem_nil]
            constructor
            · rintro a c t r ⟨rfl, rfl, rfl, rfl⟩
              exact hd.symm
            · rintro u pw r ⟨rfl, rfl, rfl⟩
              exact ha.symm
        · simp only [if_neg hup]
          simp only [List.mem_cons, List.mem_singleton, Event.Dial.injEq,
            reduceCtorEq, or_false, false_or, List.not_mem_nil, false_imp_iff,
            implies_true, and_true]
          rintro a c t r ⟨rfl, rfl, rfl, rfl⟩
          exact hd.symm
    · rw [runTest_no_token net tst target opts hp hin]
      simp

/-- A run whose input text holds a token returns. -/
theorem runTest_returns (net : Network) (tst : Test) (target : String)
    (opts : TestOptions) (hin : hasToken tst.Input) :
    ∃ r, (RunTest net tst target opts).outcome = Outcome.returned r := by
  cases hp : resolvePort tst with
  | error e0 =>
    rw [runTest_parse_error net tst target opts hp]
    exact ⟨_, rfl⟩
  | ok p =>
    rw [runTest_reaches_dial net tst target opts hp hin]
    cases net.Dial (dialAddress target p) (tlsSetupOf tst) opts.Timeout with
    | some err => exact ⟨_, rfl⟩
    | none =>
      by_cases hup : tst.arg "username" ≠ "" ∧ tst.arg "password" ≠ ""
      · simp only [if_pos hup]
        cases net.Auth (tst.arg "username") (tst.arg "password") <;> exact ⟨_, rfl⟩
      · simp only [if_neg hup]
        exact ⟨_, rfl⟩

/-- C7: `RunTest` returns the first failure met, unchanged: the error of
`strconv.Atoi` for a non-empty unparseable port, else the error of a failed
dial, else the error of a failed login.  It returns nil exactly when the
port resolves, the dial succeeds and no login fails; `Quit` is then the last
call issued, and what `Quit` answers never changes the result.  The answers
in the trace are those of the server, and a run on an input text with a
token does return. -/
theorem C7_first_failure (net : Network) (tst : Test) (target : String)
    (opts : TestOptions) :
    (∀ e, tst.arg "port" ≠ "" → Atoi (tst.arg "port") = Except.error e →
      (RunTest net tst target opts).outcome = Outcome.returned (some e)) ∧
    (∀ a c t e, Event.Dial a c t (some e) ∈ (RunTest net tst target opts).trace →
      (RunTest net tst target opts).outcome = Outcome.returned (some e)) ∧
    (∀ u p e, Event.Auth u p (some e) ∈ (RunTest net tst target opts).trace →
      (RunTest net tst target opts).outcome = Outcome.returned (some e)) ∧
    ((RunTest net tst target opts).outcome = Outcome.returned none ↔
      ((∃ p, resolvePort tst = Except.ok p) ∧
       (∃ a c t, Event.Dial a c t none ∈ (RunTest net tst target opts).trace) ∧
       (∀ u p e, Event.Auth u p (some e) ∉ (RunTest net tst target opts).trace))) ∧
    ((RunTest net tst target opts).outcome = Outcome.returned none →
      (RunTest net tst target opts).trace.getLast? = some (Event.Quit net.Quit) ∧
      (RunTest net tst target opts).quits = 1) ∧
    ((∀ a c t r, Event.Dial a c t r ∈ (RunTest net tst target opts).trace →
        r = net.Dial a c t) ∧
      (∀ u p r, Event.Auth u p r ∈ (RunTest net tst target opts).trace →
        r = net.Auth u p)) ∧
    (hasToken tst.Input →
      ∃ r, (RunTest net tst target opts).outcome = Outcome.returned r) ∧
    (∀ q, (RunTest { net with Quit := q } tst target opts).outcome =
      (RunTest net tst target opts).outcome) := by
  cases hp : resolvePort tst with
  | error e0 =>
    refine ⟨?_, ?_, ?_, ?_, ?_, runTest_answers net tst target opts,
      runTest_returns net tst target opts, runTest_outcome_quit net tst target opts⟩ <;>
      rw [runTest_parse_error net tst target opts hp]
    · intro e hne he
      unfold resolvePort at hp
      rw [if_pos hne, he] at hp
      rw [Except.error.inj hp]
    · intro a c t e h; simp at h
    · intro u p e h; simp at h
    · simp
    · simp
  | ok p =>
    have hport : ∀ e, tst.arg "port" ≠ "" → Atoi (tst.arg "port") = Except.error e → False := by
      intro e hne he
      unfold resolvePort at hp
      rw [if_pos hne, he] at hp
      cases hp
    by_cases hin : hasToken tst.Input
    · refine ⟨fun e hne he => (hport e hne he).elim, ?_, ?_, ?_, ?_,
        runTest_answers net tst target opts, runTest_returns net tst target opts,
        runTest_outcome_quit net tst target opts⟩ <;>
        rw [runTest_reaches_dial net tst target opts hp hin]
      all_goals
        cases hd : net.Dial (dialAddress target p) (tlsSetupOf tst) opts.Timeout with
        | some err =>
          simp
          try (intro a c t e _ _ _ h; rw [h])
        | none =>
          by_cases hup : tst.arg "username" ≠ "" ∧ tst.arg "password" ≠ ""
          · simp only [if_pos hup]
            cases ha : net.Auth (tst.arg "username") (tst.arg "password") with
            | some err =>
              simp
              try (intro u pw e _ _ h; rw [h])
            | none => simp [Run.quits]
          · simp only [if_neg hup]
            simp [Run.quits]
    · refine ⟨fun e hne he => (hport e hne he).elim, ?_, ?_, ?_, ?_,
        runTest_answers net tst target opts, runTest_returns net tst target opts,
        runTest_outcome_quit net tst target opts⟩ <;>
        rw [runTest_no_token net tst target opts hp hin] <;> simp

set_option maxRecDepth 100000 in
theorem C7_first_failure_witness :
    (RunTest rejectAuth
        ⟨"mail.example.com must run pop3s", [("username", "u"), ("password", "bad")]⟩
        "mail.example.com" ⟨5⟩).outcome = Outcome.returned (some (Error.client "-ERR")) ∧
    (RunTest acceptAll ⟨"mail.example.com must run pop3s", []⟩
        "mail.example.com" ⟨5⟩).trace.getLast? = some (Event.Quit none) ∧
    (RunTest { acceptAll with Quit := some (Error.client "broken pipe") }
        ⟨"mail.example.com must run pop3s", []⟩ "mail.example.com" ⟨5⟩).outcome =
      Outcome.returned none :=
  ⟨(C7_first_failure rejectAuth
      ⟨"mail.example.com must run pop3s", [("username", "u"), ("password", "bad")]⟩
      "mail.example.com" ⟨5⟩).2.2.1 "u" "bad" (Error.client "-ERR") (by decide),
   ((C7_first_failure acceptAll ⟨"mail.example.com must run pop3s", []⟩
      "mail.example.com" ⟨5⟩).2.2.2.2.1 (by decide)).1,
   ((C7_first_failure acceptAll ⟨"mail.example.com must run pop3s", []⟩
      "mail.example.com" ⟨5⟩).2.2.2.2.2.2.2 (some (Error.client "broken pipe"))).trans
      (by decide)⟩

/-- C8 (the code leaks the connection): with a server that accepts the
connection and rejects the login, the run dials successfully, returns the
login error and issues no `Quit`; its trace ends with the failed `Auth`. -/
theorem C8_no_quit_after_failed_auth :
    RunTest rejectAuth
        ⟨"mail.example.com must run pop3s", [("username", "u"), ("password", "bad")]⟩
        "mail.example.com" ⟨5⟩ =
      ⟨[Event.Dial "mail.example.com:995" ⟨"mail.example.com", false⟩ 5 none,
        Event.Auth "u" "bad" (some (Error.client "-ERR"))],
       Outcome.returned (some (Error.client "-ERR"))⟩ ∧
    (RunTest rejectAuth
        ⟨"mail.example.com must run pop3s", [("username", "u"), ("password", "bad")]⟩
        "mail.example.com" ⟨5⟩).quits = 0 := by
  decide

/-- C10: with an empty or parseable port, an input text that holds a
non-whitespace character makes `data[0]` an in-range access, and the run
reaches its one dial without failing on the index; an input text without
such a character makes the run fail on `data[0]` before any network call.
Neither half looks at the `tls` argument. -/
theorem C10_data0_in_range (net : Network) (tst : Test) (target : String)
    (opts : TestOptions)
    (hport : tst.arg "port" = "" ∨ ∃ n, Atoi (tst.arg "port") = Except.ok n) :
    (hasToken tst.Input →
      0 < (Fields tst.Input).length ∧
      (RunTest net tst target opts).outcome ≠ Outcome.panicked ∧
      (RunTest net tst target opts).dials.length = 1) ∧
    (¬ hasToken tst.Input →
      (Fields tst.Input).length = 0 ∧
      RunTest net tst target opts = ⟨[], Outcome.panicked⟩) := by
  obtain ⟨p, hp⟩ := (resolvePort_ok_iff tst).mpr hport
  constructor
  · intro hin
    obtain ⟨rest, hf⟩ := fields_of_hasToken hin
    refine ⟨by rw [hf]; simp, ?_, by rw [runTest_dials net tst target opts hp hin]; rfl⟩
    rw [runTest_reaches_dial net tst target opts hp hin]
    cases net.Dial (dialAddress target p) (tlsSetupOf tst) opts.Timeout with
    | some err => simp
    | none =>
      by_cases hup : tst.arg "username" ≠ "" ∧ tst.arg "password" ≠ ""
      · simp only [if_pos hup]
        cases net.Auth (tst.arg "username") (tst.arg "password") <;> simp
      · simp only [if_neg hup]
        simp
  · intro hin
    exact ⟨by rw [fields_of_not_hasToken hin]; rfl, runTest_no_token net tst target opts hp hin⟩

set_option maxRecDepth 100000 in
theorem C10_data0_in_range_witness :
    (RunTest acceptAll ⟨" mail.example.com must run pop3s", [("tls", "insecure")]⟩
        "mail.example.com" ⟨5⟩).outcome ≠ Outcome.panicked ∧
    (RunTest acceptAll ⟨" mail.example.com must run pop3s", [("tls", "insecure")]⟩
        "mail.example.com" ⟨5⟩).dials.length = 1 ∧
    RunTest acceptAll ⟨" \t ", []⟩ "mail.example.com" ⟨5⟩ = ⟨[], Outcome.panicked⟩ :=
  have h1 := (C10_data0_in_range acceptAll
    ⟨" mail.example.com must run pop3s", [("tls", "insecure")]⟩ "mail.example.com" ⟨5⟩
    (Or.inl (by decide))).1 ⟨'m', by decide, by decide⟩
  have h2 := (C10_data0_in_range acceptAll ⟨" \t ", []⟩ "mail.example.com" ⟨5⟩
    (Or.inl (by decide))).2 (by unfold hasToken; decide)
  ⟨h1.2.1, h1.2.2, h2.2⟩

/-! ## `strconv.Atoi` on strings of digits -/

theorem valFrom_ge (bs : List Nat) : ∀ n, n ≤ valFrom n bs := by
  induction bs with
  | nil => intro n; exact Nat.le_refl n
  | cons b bs ih =>
    intro n
    have h := ih (n * 10 + (b - 48))
    simp only [valFrom, List.foldl_cons] at h ⊢
    omega

theorem valFrom_lt (bs : List Nat) (hd : ∀ b ∈ bs, 48 ≤ b ∧ b ≤ 57) :
    ∀ n, valFrom n bs < (n + 1) * 10 ^ bs.length := by
  induction bs with
  | nil => intro n; simp [valFrom]
  | cons b bs ih =>
    intro n
    have hb := hd b (List.mem_cons_self b bs)
    have h := ih (fun x hx => hd x (List.mem_cons_of_mem b hx)) (n * 10 + (b - 48))
    simp only [valFrom, List.foldl_cons, List.length_cons] at h ⊢
    have h2 : (n * 10 + (b - 48) + 1) * 10 ^ bs.length ≤ (n + 1) * 10 ^ (bs.length + 1) := by
      have : (n + 1) * 10 ^ (bs.length + 1) = ((n + 1) * 10) * 10 ^ bs.length := by ring
      rw [this]
      apply Nat.mul_le_mul_right
      omega
    omega

theorem wrapInt_of_range (x : Int) (h0 : 0 ≤ x) (h1 : x < 2 ^ 63) : wrapInt x = x := by
  unfold wrapInt intSize
  norm_num at h1 ⊢
  omega

theorem atoiLoop_digits (bs : List Nat) (hd : ∀ b ∈ bs, 48 ≤ b ∧ b ≤ 57) :
    ∀ n : Nat, valFrom n bs < 2 ^ 63 → atoiLoop bs (n : Int) = some ((valFrom n bs : Nat) : Int) := by
  induction bs with
  | nil => intro n _; rfl
  | cons b bs ih =>
    intro n hlt
    have hb := hd b (List.mem_cons_self b bs)
    have hlt' : valFrom (n * 10 + (b - 48)) bs < 2 ^ 63 := hlt
    have hge := valFrom_ge bs (n * 10 + (b - 48))
    have hmod : (b + 256 - 48) % 256 = b - 48 := by omega
    have hw : wrapInt ((n : Int) * 10 + ((b - 48 : Nat) : Int)) = ((n * 10 + (b - 48) : Nat) : Int) := by
      rw [wrapInt_of_range]
      · push_cast; rfl
      · positivity
      · have : n * 10 + (b - 48) < 2 ^ 63 := lt_of_le_of_lt hge hlt'
        exact_mod_cast this
    have ih' := ih (fun x hx => hd x (List.mem_cons_of_mem b hx)) (n * 10 + (b - 48)) hlt'
    unfold atoiLoop
    simp only [hmod]
    rw [if_neg (by omega), hw, ih']
    rfl

theorem parseUintLoop_digits (bs : List Nat) (hd : ∀ b ∈ bs, 48 ≤ b ∧ b ≤ 57) :
    ∀ n : Nat, n < 2 ^ 64 →
      parseUintLoop bs n =
        if valFrom n bs < 2 ^ 64 then UintResult.ok (valFrom n bs)
        else UintResult.err (2 ^ 64 - 1) NumErrKind.ErrRange := by
  induction bs with
  | nil =>
    intro n hn
    have hv : valFrom n [] = n := rfl
    rw [hv, if_pos hn]
    rfl
  | cons b bs ih =>
    intro n hn
    have hb := hd b (List.mem_cons_self b bs)
    have ih' := ih (fun x hx => hd x (List.mem_cons_of_mem b hx))
    have hge := valFrom_ge bs (n * 10 + (b - 48))
    have hv : valFrom n (b :: bs) = valFrom (n * 10 + (b - 48)) bs := rfl
    rw [hv]
    unfold parseUintLoop
    simp only [hb, and_self, if_true]
    rw [if_neg (by omega)]
    by_cases hc : n ≥ (2 ^ 64 - 1) / 10 + 1
    · rw [if_pos hc, if_neg]
      norm_num at hc ⊢
      omega
    · rw [if_neg hc]
      norm_num at hc hn
      have h10 : (n * 10) % 2 ^ 64 = n * 10 := Nat.mod_eq_of_lt (by norm_num; omega)
      simp only [h10]
      by_cases ho : n * 10 + (b - 48) < 2 ^ 64
      · rw [Nat.mod_eq_of_lt ho, if_neg (by omega)]
        exact ih' _ ho
      · rw [if_pos, if_neg]
        · omega
        · left
          norm_num at ho ⊢
          omega

theorem goBytes_digits (s : String) (h : ∀ c ∈ s.data, 48 ≤ c.toNat ∧ c.toNat ≤ 57) :
    goBytes s = s.data.map Char.toNat := by
  unfold goBytes
  generalize s.data = l at h
  induction l with
  | nil => rfl
  | cons c cs ih =>
    have hc := h c (List.mem_cons_self c cs)
    have h1 : charBytes c = [c.toNat] := by
      unfold charBytes
      simp only
      rw [if_pos (by omega)]
    rw [List.flatMap_cons, h1, ih (fun x hx => h x (List.mem_cons_of_mem c hx))]
    rfl

theorem decimalValue_eq_valFrom (s : String) :
    decimalValue s = valFrom 0 (s.data.map Char.toNat) := by
  unfold decimalValue valFrom
  rw [List.foldl_map]

theorem Atoi_digits (s : String) (h : isDigitString s) :
    Atoi s =
      if decimalValue s < 2 ^ 63 then Except.ok ((decimalValue s : Nat) : Int)
      else Except.error (rangeError "Atoi" s) := by
  obtain ⟨hne, hd⟩ := h
  have hbytes := goBytes_digits s hd
  have hval := decimalValue_eq_valFrom s
  have hdig : ∀ x ∈ goBytes s, 48 ≤ x ∧ x ≤ 57 := by
    intro x hx
    rw [hbytes, List.mem_map] at hx
    obtain ⟨c, hc, rfl⟩ := hx
    exact hd c hc
  rw [← hbytes] at hval
  rw [hval]
  cases hb : goBytes s with
  | nil =>
    rw [hbytes] at hb
    exact absurd (List.map_eq_nil_iff.mp hb) hne
  | cons b rest =>
    rw [hb] at hdig
    have hb0 := hdig b (List.mem_cons_self b rest)
    unfold Atoi
    simp only [hb, List.head?_cons, intSize]
    have h45 : ¬ (some b = some 45) := by
      intro hh; have := Option.some.inj hh; omega
    have h43 : ¬ (some b = some 43) := by
      intro hh; have := Option.some.inj hh; omega
    have hsig : decide (some b = some 45 ∨ some b = some 43) = false := by
      simp [h45, h43]
    by_cases hlen : (b :: rest).length < 19
    · have hlt : valFrom 0 (b :: rest) < 2 ^ 63 := by
        have h1 := valFrom_lt (b :: rest) hdig 0
        have h2 : 10 ^ (b :: rest).length ≤ 10 ^ 18 :=
          Nat.pow_le_pow_right (by norm_num) (by omega)
        have h3 : (10 : Nat) ^ 18 < 2 ^ 63 := by norm_num
        omega
      have hloop := atoiLoop_digits (b :: rest) hdig 0 hlt
      rw [if_pos (Or.inr ⟨trivial, by simp, hlen⟩), if_pos hlt]
      have hz : ((0 : Nat) : Int) = 0 := rfl
      rw [hz] at hloop
      simp only [h45, h43, or_self, decide_False, Bool.false_eq_true, false_and, if_false,
        hloop]
    · rw [if_neg (by
        intro hc
        rcases hc with hc | hc
        · omega
        · exact hlen hc.2.2)]
      unfold ParseInt ParseUint
      simp only [List.head?_cons, h45, h43, or_self, if_false, decide_False,
        reduceCtorEq, intSize]
      rw [parseUintLoop_digits (b :: rest) hdig 0 (by norm_num)]
      by_cases h64 : valFrom 0 (b :: rest) < 2 ^ 64
      · rw [if_pos h64]
        simp only [Bool.not_false, true_and, false_and, if_false]
        by_cases h63 : valFrom 0 (b :: rest) < 2 ^ 63
        · rw [if_neg (by norm_num at h63 ⊢; omega), if_pos h63]
        · rw [if_pos (by norm_num at h63 ⊢; omega), if_neg h63]
      · rw [if_neg h64]
        simp only [Bool.not_false, true_and, false_and, if_false]
        rw [if_pos (by norm_num), if_neg (by norm_num at h64 ⊢; omega)]

/-! ## The schema pattern of `port` against `strconv.Atoi` -/

set_option maxRecDepth 100000 in
/-- C9 (as stated, refuted): `9223372036854775808` is a non-empty string of
decimal digits, yet `strconv.Atoi` rejects it with a range error and the run
ends with that error before any network call. -/
theorem C9_counterexample :
    isDigitString "9223372036854775808" ∧
    Test.arg ⟨"mail.example.com must run pop3s", [("port", "9223372036854775808")]⟩ "port" =
      "9223372036854775808" ∧
    RunTest acceptAll
        ⟨"mail.example.com must run pop3s", [("port", "9223372036854775808")]⟩
        "mail.example.com" ⟨5⟩ =
      ⟨[], Outcome.returned
        (some (Error.NumError "Atoi" "9223372036854775808" NumErrKind.ErrRange))⟩ :=
  ⟨⟨by decide, by decide⟩, by decide, by decide⟩

/-- C9 (amended): a `port` value made of one or more decimal digits, of any
length and with any leading zeros, whose value is below `2 ^ 63` is parsed
by `strconv.Atoi` to that value, and a run that reaches the dial uses it as
the port of its one dial address, where the digits printed denote the same
value; a string of digits denoting `2 ^ 63` or more ends the run with the
range error of `strconv.Atoi` before any network call. -/
theorem C9_digit_port (net : Network) (tst : Test) (target : String)
    (opts : TestOptions) (hdig : isDigitString (tst.arg "port")) :
    (decimalValue (tst.arg "port") < 2 ^ 63 →
      Atoi (tst.arg "port") = Except.ok ((decimalValue (tst.arg "port") : Nat) : Int) ∧
      decimalValue (formatInt ((decimalValue (tst.arg "port") : Nat) : Int)) =
        decimalValue (tst.arg "port") ∧
      (hasToken tst.Input → ∃ cfg, (RunTest net tst target opts).dials =
        [(dialAddress target ((decimalValue (tst.arg "port") : Nat) : Int), cfg,
          opts.Timeout)])) ∧
    (2 ^ 63 ≤ decimalValue (tst.arg "port") →
      RunTest net tst target opts =
        ⟨[], Outcome.returned (some (rangeError "Atoi" (tst.arg "port")))⟩) := by
  have hne : tst.arg "port" ≠ "" := by
    intro h
    apply hdig.1
    rw [h]
  have hA := Atoi_digits (tst.arg "port") hdig
  constructor
  · intro hlt
    rw [if_pos hlt] at hA
    refine ⟨hA, decimalValue_formatInt _, fun hin => ⟨tlsSetupOf tst, ?_⟩⟩
    have hp : resolvePort tst = Except.ok ((decimalValue (tst.arg "port") : Nat) : Int) := by
      unfold resolvePort; rw [if_pos hne, hA]
    exact runTest_dials net tst target opts hp hin
  · intro hge
    rw [if_neg (by omega)] at hA
    have hp : resolvePort tst = Except.error (rangeError "Atoi" (tst.arg "port")) := by
      unfold resolvePort; rw [if_pos hne, hA]
    exact runTest_parse_error net tst target opts hp

set_option maxRecDepth 100000 in
theorem C9_digit_port_witness :
    Atoi "0000000000000000000002995" = Except.ok 2995 ∧
    (∃ cfg, (RunTest acceptAll
        ⟨"mail.example.com must run pop3s", [("port", "0000000000000000000002995")]⟩
        "mail.example.com" ⟨5⟩).dials = [("mail.example.com:2995", cfg, 5)]) :=
  have h := (C9_digit_port acceptAll
    ⟨"mail.example.com must run pop3s", [("port", "0000000000000000000002995")]⟩
    "mail.example.com" ⟨5⟩ ⟨by decide, by decide⟩).1 (by decide)
  ⟨h.1, h.2.2 ⟨'m', by decide, by decide⟩⟩

end Overseer
